import Mathlib

/-!
Verification of the portfolio backend (`main.py`, `schemas.py`).

The service stores three kinds of documents (skills, experiences, blog
posts) in a document database, serves public read endpoints and
password-gated admin create/update/delete endpoints behind a cookie
session.  This file embeds the request handlers shallowly:

* BSON values become the inductive `Value`; a MongoDB document becomes an
  association list `Doc := List (String × Value)` with first-occurrence
  lookup (`docGet`) and in-place overwrite (`docSet`), matching Python
  dict semantics for dictionaries with unique keys.
* Datetimes (`datetime.utcnow()`, `created_at`, `updated_at`) are modelled
  as integer timestamps (`Value.vInt`): the code only ever stores and
  sorts them, and they are totally ordered.  The only list values this
  application ever stores or validates are lists of strings (`tags`), so
  list values are `Value.vStrList`.
* The store operations used by the handlers (`find` + `sort` + `limit`,
  `find_one`, `update_one`, `delete_one`) are given their standard MongoDB
  semantics over lists of documents.  `limit(0)` is "no limit" and a
  negative limit acts like its absolute value, as documented for MongoDB
  cursors.  The sort is an insertion sort by the sort key; documents
  missing the key sort as null, and values of different BSON types are
  ranked by type (an approximation of MongoDB type bracketing — the
  handlers only ever sort integer-valued keys).
* Each HTTP handler becomes a pure function returning
  `Except Err α` (an `HTTPException` becomes `Err` with its status code),
  threading the session dict and the three collections explicitly.
-/

set_option maxHeartbeats 1000000

namespace PortfolioApp

/-- A BSON/JSON value as stored in documents, sessions and payloads.
`vInt` also models datetimes (as integer timestamps); `vOid` is a BSON
ObjectId carried as its 24-hex-character string; `vStrList` covers the
lists this application stores (lists of strings, i.e. `tags`). -/
inductive Value where
  | vNull : Value
  | vBool (b : Bool) : Value
  | vInt (n : Int) : Value
  | vStr (s : String) : Value
  | vOid (s : String) : Value
  | vStrList (l : List String) : Value
deriving DecidableEq, Repr

/-- A document (or Python dict): an association list keyed by strings.
Real dicts have unique keys; lookups take the first occurrence. -/
abbrev Doc : Type := List (String × Value)

/-- First-occurrence lookup, Python `d.get(k)`. -/
def docGet (d : Doc) (k : String) : Option Value :=
  match d with
  | [] => none
  | (k', v) :: rest => if k' = k then some v else docGet rest k

/-- Lookup with default, Python `d.get(k, dflt)`. -/
def docGetD (d : Doc) (k : String) (dflt : Value) : Value :=
  (docGet d k).getD dflt

/-- Key list of a document. -/
def keys (d : Doc) : List String :=
  d.map Prod.fst

/-- Python `d[k] = v`: overwrite the (first) binding of `k`, or append. -/
def docSet (d : Doc) (k : String) (v : Value) : Doc :=
  match d with
  | [] => [(k, v)]
  | (k', v') :: rest => if k' = k then (k, v) :: rest else (k', v') :: docSet rest k v

/-- Apply a `$set` update document (or Python dict merge `{**d, **fs}`):
set each binding of `fs` in order. -/
def applySet (d : Doc) (fs : Doc) : Doc :=
  fs.foldl (fun acc kv => docSet acc kv.1 kv.2) d

/-- MongoDB equality-filter match: every filter binding holds in `d`. -/
def docMatches (filter : Doc) (d : Doc) : Bool :=
  filter.all (fun kv => docGet d kv.1 == some kv.2)

/-- Python truthiness, for the values a session dict can hold. -/
def truthy : Value → Bool
  | .vNull => false
  | .vBool b => b
  | .vInt n => n != 0
  | .vStr s => s != ""
  | .vOid _ => true
  | .vStrList l => !l.isEmpty

/-! ### Basic lemmas on documents -/

/-! ### Ordering of values (for MongoDB `sort`) -/

/-- Lexicographic comparison of code-point lists. -/
def lexLe : List Nat → List Nat → Bool
  | [], _ => true
  | _ :: _, [] => false
  | a :: as, b :: bs => if a < b then true else if b < a then false else lexLe as bs

/-- String comparison by code points. -/
def strLe (s t : String) : Bool :=
  lexLe (s.data.map Char.toNat) (t.data.map Char.toNat)

/-- Type rank, approximating MongoDB type bracketing:
Null < Numbers (and the dates we model as integers) < Strings < Arrays <
ObjectId < Boolean. -/
def valRank : Value → Nat
  | .vNull => 0
  | .vInt _ => 1
  | .vStr _ => 2
  | .vStrList _ => 3
  | .vOid _ => 4
  | .vBool _ => 5

/-- Total preorder on stored values: by type rank, then within a type by
the natural order (arrays compare equal — the handlers never sort by an
array-valued key). -/
def valLe (a b : Value) : Bool :=
  match a, b with
  | .vInt x, .vInt y => x ≤ y
  | .vStr x, .vStr y => strLe x y
  | .vOid x, .vOid y => strLe x y
  | .vBool x, .vBool y => !x || y
  | _, _ => valRank a ≤ valRank b

/-! ### Insertion sort (models the store's sort on a key) -/

/-- Insert into a list sorted by `le`. -/
def insertBy (le : Doc → Doc → Bool) (d : Doc) : List Doc → List Doc
  | [] => [d]
  | e :: es => if le d e then d :: e :: es else e :: insertBy le d es

/-- Sort by `le` (insertion sort; the store's sort order on ties is
unspecified, so any sort by the key is a faithful model). -/
def sortBy (le : Doc → Doc → Bool) : List Doc → List Doc
  | [] => []
  | d :: ds => insertBy le d (sortBy le ds)

/-! ### The store operations used by the handlers -/

/-- `collection.find(filter)`: the documents matching the filter, in
collection order. -/
def mongoFind (coll : List Doc) (filter : Doc) : List Doc :=
  coll.filter (docMatches filter)

/-- `cursor.sort(key, 1)`: ascending by `key` (missing key sorts as null). -/
def sortAscBy (k : String) (l : List Doc) : List Doc :=
  sortBy (fun a b => valLe (docGetD a k .vNull) (docGetD b k .vNull)) l

/-- `cursor.sort(key, -1)`: descending by `key`. -/
def sortDescBy (k : String) (l : List Doc) : List Doc :=
  sortBy (fun a b => valLe (docGetD b k .vNull) (docGetD a k .vNull)) l

/-- `cursor.limit(n)`: per MongoDB semantics `limit(0)` is "no limit", and
a negative limit behaves like its absolute value. -/
def mongoLimit (n : Int) (l : List Doc) : List Doc :=
  if n = 0 then l else l.take n.natAbs

/-- `collection.find_one(filter)`: the first matching document, if any. -/
def find_one (coll : List Doc) (filter : Doc) : Option Doc :=
  coll.find? (docMatches filter)

/-- `collection.update_one(filter, {"$set": upd})` (no upsert): apply the
`$set` to the first matching document; returns the new collection and
`matched_count`. -/
def update_one (coll : List Doc) (filter upd : Doc) : List Doc × Nat :=
  match coll with
  | [] => ([], 0)
  | d :: rest =>
    if docMatches filter d then (applySet d upd :: rest, 1)
    else
      let r := update_one rest filter upd
      (d :: r.1, r.2)

/-- `collection.delete_one(filter)`: remove the first matching document;
returns the new collection and `deleted_count`. -/
def delete_one (coll : List Doc) (filter : Doc) : List Doc × Nat :=
  match coll with
  | [] => ([], 0)
  | d :: rest =>
    if docMatches filter d then (rest, 1)
    else
      let r := delete_one rest filter
      (d :: r.1, r.2)

/-! ### Errors, ObjectIds, response shaping -/

/-- An `HTTPException(status_code, detail)`. -/
structure Err where
  status : Nat
  detail : String
deriving DecidableEq, Repr

/-- `bson.ObjectId.is_valid` on a string: exactly 24 hexadecimal digits. -/
def isValidObjectId (s : String) : Bool :=
  s.length == 24 &&
    s.data.all (fun c =>
      (48 ≤ c.toNat && c.toNat ≤ 57) ||
      (97 ≤ c.toNat && c.toNat ≤ 102) ||
      (65 ≤ c.toNat && c.toNat ≤ 70))

/-- Python `str()` on the values that can sit in an `_id` field (the
handlers only ever apply it to ObjectIds or, for a missing `_id`, `None`). -/
def valueToStr : Value → String
  | .vNull => "None"
  | .vBool true => "True"
  | .vBool false => "False"
  | .vInt n => toString n
  | .vStr s => s
  | .vOid s => s
  | .vStrList _ => "list"

/-- Response shaping used by every public GET handler:
`{"id": str(d.get("_id")), **{k: v for k, v in d.items() if k != "_id"}}` —
a dict literal binding `"id"` first, then merging in every non-`_id`
binding of the document (later bindings overwrite). -/
def shapeDoc (d : Doc) : Doc :=
  applySet [("id", .vStr (valueToStr (docGetD d "_id" .vNull)))]
    (d.filter (fun kv => kv.1 ≠ "_id"))

/-! ### Session gate (`request.session`, `admin_required`) -/

/-- The session dict carried in the signed session cookie. -/
abbrev Session : Type := List (String × Value)

/-- `request.session.get("admin")` truthiness. -/
def sessionAdmin (s : Session) : Bool :=
  match docGet s "admin" with
  | none => false
  | some v => truthy v

/-- `admin_required`: raise 401 unless the session holds a truthy
`"admin"` flag. -/
def admin_required (s : Session) : Except Err Unit :=
  if sessionAdmin s then .ok () else .error ⟨401, "Unauthorized"⟩

/-- `POST /api/admin/login`.  `envAdminPassword` is `os.getenv("ADMIN_PASSWORD")`;
the code falls back to the default `"admin"` when it is unset.  On a match
the session gains `admin = True`; on a mismatch nothing changes and a 401
is raised. -/
def admin_login (envAdminPassword : Option String) (password : String)
    (s : Session) : Except Err (Session × Doc) :=
  let expected := envAdminPassword.getD "admin"
  if password = expected then .ok (docSet s "admin" (.vBool true), [("ok", .vBool true)])
  else .error ⟨401, "Invalid credentials"⟩

/-- `POST /api/admin/logout`: `request.session.clear()`, always ok. -/
def admin_logout (_s : Session) : Session × Doc :=
  ([], [("ok", .vBool true)])

/-- `GET /api/admin/session`: report `bool(request.session.get("admin"))`. -/
def admin_session (s : Session) : Doc :=
  [("admin", .vBool (sessionAdmin s))]

/-! ### Request payload models (`SkillIn`, `ExperienceIn`, `BlogPostIn`) -/

structure SkillIn where
  title : String
  slug : String
  icon : Option String
  summary : Option String
  link : Option String
  tags : List String
  order : Int
deriving DecidableEq, Repr

structure ExperienceIn where
  company : String
  role : String
  startDate : String
  endDate : Option String
  summary : Option String
  image : Option String
  order : Int
deriving DecidableEq, Repr

structure BlogPostIn where
  title : String
  slug : String
  excerpt : Option String
  content : String
  coverImage : Option String
  tags : List String
  published : Bool
deriving DecidableEq, Repr

/-- An optional string as a stored value (`None` becomes null). -/
def optStr : Option String → Value
  | none => .vNull
  | some s => .vStr s

/-- `skill.model_dump()`. -/
def SkillIn.dump (p : SkillIn) : Doc :=
  [("title", .vStr p.title), ("slug", .vStr p.slug), ("icon", optStr p.icon),
   ("summary", optStr p.summary), ("link", optStr p.link),
   ("tags", .vStrList p.tags), ("order", .vInt p.order)]

/-- `exp.model_dump()`. -/
def ExperienceIn.dump (p : ExperienceIn) : Doc :=
  [("company", .vStr p.company), ("role", .vStr p.role),
   ("startDate", .vStr p.startDate), ("endDate", optStr p.endDate),
   ("summary", optStr p.summary), ("image", optStr p.image),
   ("order", .vInt p.order)]

/-- `post.model_dump()`. -/
def BlogPostIn.dump (p : BlogPostIn) : Doc :=
  [("title", .vStr p.title), ("slug", .vStr p.slug),
   ("excerpt", optStr p.excerpt), ("content", .vStr p.content),
   ("coverImage", optStr p.coverImage), ("tags", .vStrList p.tags),
   ("published", .vBool p.published)]

/-- The FastAPI/pydantic validation failure for a request body. -/
def validationErr : Err := ⟨422, "validation error"⟩

/-- A required `str` field. -/
def reqStrField (payload : Doc) (k : String) : Except Err String :=
  match docGet payload k with
  | some (.vStr s) => .ok s
  | _ => .error validationErr

/-- An `Optional[str] = None` field (absent or null is `None`). -/
def optStrField (payload : Doc) (k : String) : Except Err (Option String) :=
  match docGet payload k with
  | none => .ok none
  | some .vNull => .ok none
  | some (.vStr s) => .ok (some s)
  | some _ => .error validationErr

/-- An `int = 0` field (absent means the default). -/
def intFieldD (payload : Doc) (k : String) (dflt : Int) : Except Err Int :=
  match docGet payload k with
  | none => .ok dflt
  | some (.vInt n) => .ok n
  | some _ => .error validationErr

/-- pydantic validation of a raw request body against `ExperienceIn`
(`main.py`): note `startDate`/`endDate` are plain `str` fields there
("ISO date" only by comment), unlike the `date` fields of the unused
`schemas.Experience` model. -/
def ExperienceIn.validate (payload : Doc) : Except Err ExperienceIn :=
  match reqStrField payload "company" with
  | .error e => .error e
  | .ok company =>
    match reqStrField payload "role" with
    | .error e => .error e
    | .ok role =>
      match reqStrField payload "startDate" with
      | .error e => .error e
      | .ok startDate =>
        match optStrField payload "endDate" with
        | .error e => .error e
        | .ok endDate =>
          match optStrField payload "summary" with
          | .error e => .error e
          | .ok summary =>
            match optStrField payload "image" with
            | .error e => .error e
            | .ok image =>
              match intFieldD payload "order" 0 with
              | .error e => .error e
              | .ok order => .ok ⟨company, role, startDate, endDate, summary, image, order⟩

/-- The `schemas.py` `Experience` model declares `startDate: date`.
Modelled from the spec: "startDate (date, required), endDate (optional
date)" — a date value must be a string in ISO `YYYY-MM-DD` shape; this
checker captures whether a stored string is such a date. -/
def isIsoDateString (s : String) : Bool :=
  match s.data with
  | [y1, y2, y3, y4, d1, m1, m2, d2, dd1, dd2] =>
    y1.isDigit && y2.isDigit && y3.isDigit && y4.isDigit &&
    d1 = '-' && m1.isDigit && m2.isDigit && d2 = '-' &&
    dd1.isDigit && dd2.isDigit
  | _ => false

/-! ### The document store and the handlers -/

/-- The three collections of the store (`COLLECTIONS` maps the route
names `skills`/`experiences`/`blogs` to these collection names). -/
structure Store where
  skill : List Doc
  experience : List Doc
  blogpost : List Doc
deriving DecidableEq, Repr

/-- Modelled from the spec: `create_document` lives in the repository's
`database` module, which is not among the provided sources.  Per §4.2 it
"assigns a new store identifier, persists the document, returns the new
identifier"; the fresh identifier generation is the store's, so the new
id is a parameter here.  (The spec also makes `created_at` on blog posts
the collaborator's responsibility; no claim depends on it.) -/
def create_document (coll : List Doc) (newId : String) (data : Doc) :
    List Doc × String :=
  (coll ++ [("_id", .vOid newId) :: data], newId)

/-- An admin write request, after FastAPI body validation: one
constructor per admin CRUD route of `main.py`. -/
inductive AdminReq where
  | createSkill (p : SkillIn)
  | updateSkill (id : String) (p : SkillIn)
  | deleteSkill (id : String)
  | createExperience (p : ExperienceIn)
  | updateExperience (id : String) (p : ExperienceIn)
  | deleteExperience (id : String)
  | createBlog (p : BlogPostIn)
  | updateBlog (id : String) (p : BlogPostIn)
  | deleteBlog (id : String)

/-- The id-equality filter `{"_id": ObjectId(id)}` of update/delete. -/
def idFilter (id : String) : Doc := [("_id", .vOid id)]

/-- The update handlers' store call:
`update_one({"_id": ObjectId(id)}, {"$set": {**dump, "updated_at": now}})`,
then 404 when nothing matched, else `{"ok": True}`. -/
def runUpdate (coll : List Doc) (id : String) (dump : Doc) (now : Int) :
    Except Err Doc × List Doc :=
  if isValidObjectId id then
    let r := update_one coll (idFilter id) (dump ++ [("updated_at", .vInt now)])
    if r.2 = 0 then (.error ⟨404, "Not found"⟩, r.1)
    else (.ok [("ok", .vBool true)], r.1)
  else (.error ⟨400, "Invalid id"⟩, coll)

/-- The delete handlers' store call: `delete_one({"_id": ObjectId(id)})`,
answering `{"deleted": count}`. -/
def runDelete (coll : List Doc) (id : String) : Except Err Doc × List Doc :=
  if isValidObjectId id then
    let r := delete_one coll (idFilter id)
    (.ok [("deleted", .vInt r.2)], r.1)
  else (.error ⟨400, "Invalid id"⟩, coll)

/-- The create handlers' store call, answering `{"id": new_id}`. -/
def runCreate (coll : List Doc) (newId : String) (dump : Doc) :
    Except Err Doc × List Doc :=
  let r := create_document coll newId dump
  (.ok [("id", .vStr r.2)], r.1)

/-- Dispatch of an admin write request: the `Depends(admin_required)`
gate first, then the route handler.  `now` stands for `datetime.utcnow()`
and `newId` for the store-generated id of a create. -/
def handleAdmin (r : AdminReq) (s : Session) (st : Store) (now : Int)
    (newId : String) : Except Err Doc × Store :=
  match admin_required s with
  | .error e => (.error e, st)
  | .ok _ =>
    match r with
    | .createSkill p =>
      let q := runCreate st.skill newId p.dump
      (q.1, { st with skill := q.2 })
    | .updateSkill id p =>
      let q := runUpdate st.skill id p.dump now
      (q.1, { st with skill := q.2 })
    | .deleteSkill id =>
      let q := runDelete st.skill id
      (q.1, { st with skill := q.2 })
    | .createExperience p =>
      let q := runCreate st.experience newId p.dump
      (q.1, { st with experience := q.2 })
    | .updateExperience id p =>
      let q := runUpdate st.experience id p.dump now
      (q.1, { st with experience := q.2 })
    | .deleteExperience id =>
      let q := runDelete st.experience id
      (q.1, { st with experience := q.2 })
    | .createBlog p =>
      let q := runCreate st.blogpost newId p.dump
      (q.1, { st with blogpost := q.2 })
    | .updateBlog id p =>
      let q := runUpdate st.blogpost id p.dump now
      (q.1, { st with blogpost := q.2 })
    | .deleteBlog id =>
      let q := runDelete st.blogpost id
      (q.1, { st with blogpost := q.2 })

/-- `POST /api/admin/experiences` on a raw body: the admin gate, then
pydantic validation against `ExperienceIn`, then the store insert. -/
def create_experience_raw (s : Session) (st : Store) (payload : Doc)
    (newId : String) : Except Err Doc × Store :=
  match admin_required s with
  | .error e => (.error e, st)
  | .ok _ =>
    match ExperienceIn.validate payload with
    | .error e => (.error e, st)
    | .ok p =>
      let q := runCreate st.experience newId p.dump
      (q.1, { st with experience := q.2 })

/-! ### Public GET endpoints -/

/-- The default `limit` of the list endpoints (`limit: int = 100`). -/
def defaultLimit : Int := 100

/-- `GET /api/skills`: `find({}).sort("order", 1).limit(limit)`, shaped. -/
def get_skills (coll : List Doc) (limit : Int) : List Doc :=
  (mongoLimit limit (sortAscBy "order" (mongoFind coll []))).map shapeDoc

/-- `GET /api/experiences`: `find({}).sort("order", 1).limit(limit)`, shaped. -/
def get_experiences (coll : List Doc) (limit : Int) : List Doc :=
  (mongoLimit limit (sortAscBy "order" (mongoFind coll []))).map shapeDoc

/-- `GET /api/blogs`:
`find({"published": True}).sort("created_at", -1).limit(limit)`, shaped. -/
def get_blogs (coll : List Doc) (limit : Int) : List Doc :=
  (mongoLimit limit
    (sortDescBy "created_at" (mongoFind coll [("published", .vBool true)]))).map shapeDoc

/-- `GET /api/skills/{slug}`: `find_one({"slug": slug})`, 404 when the
result is falsy (no document, or an empty one), else shaped. -/
def get_skill (coll : List Doc) (slug : String) : Except Err Doc :=
  match find_one coll [("slug", .vStr slug)] with
  | none => .error ⟨404, "Not found"⟩
  | some d => if d = ([] : Doc) then .error ⟨404, "Not found"⟩ else .ok (shapeDoc d)

/-- `GET /api/blogs/{slug}`: `find_one({"slug": slug, "published": True})`,
404 when the result is falsy, else shaped. -/
def get_blog (coll : List Doc) (slug : String) : Except Err Doc :=
  match find_one coll [("slug", .vStr slug), ("published", .vBool true)] with
  | none => .error ⟨404, "Not found"⟩
  | some d => if d = ([] : Doc) then .error ⟨404, "Not found"⟩ else .ok (shapeDoc d)

/-! ### Specification predicates used by the claim theorems -/

/-- A successful `update_one`-based update: the collection splits around
the first matching document, which is replaced by the `$set`-updated
document; everything else is untouched. -/
def updateApplied (collOld collNew : List Doc) (id : String) (u : Doc) : Prop :=
  ∃ l1 d l2, collOld = l1 ++ d :: l2 ∧
    (∀ d' ∈ l1, docMatches (idFilter id) d' = false) ∧
    docMatches (idFilter id) d = true ∧
    collNew = l1 ++ applySet d u :: l2

/-- All `SkillIn` schema fields take the payload's values, and
`updated_at` the current time, on the updated document. -/
def skillFieldsSet (p : SkillIn) (now : Int) (newd : Doc) : Prop :=
  docGet newd "title" = some (.vStr p.title) ∧
  docGet newd "slug" = some (.vStr p.slug) ∧
  docGet newd "icon" = some (optStr p.icon) ∧
  docGet newd "summary" = some (optStr p.summary) ∧
  docGet newd "link" = some (optStr p.link) ∧
  docGet newd "tags" = some (.vStrList p.tags) ∧
  docGet newd "order" = some (.vInt p.order) ∧
  docGet newd "updated_at" = some (.vInt now)

/-- All `ExperienceIn` schema fields take the payload's values, and
`updated_at` the current time, on the updated document. -/
def experienceFieldsSet (p : ExperienceIn) (now : Int) (newd : Doc) : Prop :=
  docGet newd "company" = some (.vStr p.company) ∧
  docGet newd "role" = some (.vStr p.role) ∧
  docGet newd "startDate" = some (.vStr p.startDate) ∧
  docGet newd "endDate" = some (optStr p.endDate) ∧
  docGet newd "summary" = some (optStr p.summary) ∧
  docGet newd "image" = some (optStr p.image) ∧
  docGet newd "order" = some (.vInt p.order) ∧
  docGet newd "updated_at" = some (.vInt now)

/-- All `BlogPostIn` schema fields take the payload's values, and
`updated_at` the current time, on the updated document. -/
def blogFieldsSet (p : BlogPostIn) (now : Int) (newd : Doc) : Prop :=
  docGet newd "title" = some (.vStr p.title) ∧
  docGet newd "slug" = some (.vStr p.slug) ∧
  docGet newd "excerpt" = some (optStr p.excerpt) ∧
  docGet newd "content" = some (.vStr p.content) ∧
  docGet newd "coverImage" = some (optStr p.coverImage) ∧
  docGet newd "tags" = some (.vStrList p.tags) ∧
  docGet newd "published" = some (.vBool p.published) ∧
  docGet newd "updated_at" = some (.vInt now)

/-- The delete contract on one collection: a `{"deleted": n}` response
with `n ∈ {0, 1}`, `n = 0` and no change when nothing matches, and for
`n = 1` exactly the first matching document removed. -/
def deleteBehaves (collOld : List Doc) (id : String)
    (out : Except Err Doc × List Doc) : Prop :=
  ∃ n : Nat, out.1 = .ok [("deleted", .vInt n)] ∧ (n = 0 ∨ n = 1) ∧
    ((∀ d ∈ collOld, docMatches (idFilter id) d = false) → n = 0 ∧ out.2 = collOld) ∧
    (n = 1 → ∃ l1 d l2, collOld = l1 ++ d :: l2 ∧
      docMatches (idFilter id) d = true ∧ out.2 = l1 ++ l2)

/-- The descending `created_at` comparison, on shaped documents as the
endpoint returns them. -/
def createdAtDesc (a b : Doc) : Prop :=
  valLe (docGetD b "created_at" .vNull) (docGetD a "created_at" .vNull) = true

/-! ### Concrete example data (for witnesses and counterexamples) -/

/-- A published blog document, `created_at` 5. -/
def exBlogA : Doc :=
  [("_id", .vOid "aaaaaaaaaaaaaaaaaaaaaaaa"), ("title", .vStr "A"),
   ("slug", .vStr "a"), ("published", .vBool true), ("created_at", .vInt 5)]

/-- An unpublished blog document, `created_at` 9. -/
def exBlogB : Doc :=
  [("_id", .vOid "bbbbbbbbbbbbbbbbbbbbbbbb"), ("title", .vStr "B"),
   ("slug", .vStr "b"), ("published", .vBool false), ("created_at", .vInt 9)]

/-- A published blog document, `created_at` 7. -/
def exBlogC : Doc :=
  [("_id", .vOid "cccccccccccccccccccccccc"), ("title", .vStr "C"),
   ("slug", .vStr "c"), ("published", .vBool true), ("created_at", .vInt 7)]

/-- A stored skill document. -/
def exSkillDoc : Doc :=
  [("_id", .vOid "0123456789abcdef01234567"), ("title", .vStr "Go"),
   ("slug", .vStr "go"), ("order", .vInt 1)]

/-- A store with one skill and three blog posts. -/
def exStore : Store := ⟨[exSkillDoc], [], [exBlogA, exBlogB, exBlogC]⟩

/-- An authorized session. -/
def exAuthSession : Session := [("admin", .vBool true)]

/-- A skill write payload. -/
def exSkillIn : SkillIn := ⟨"Go", "go", none, none, none, [], 1⟩

/-- An experience write payload. -/
def exExperienceIn : ExperienceIn := ⟨"Acme", "Dev", "2020-01-01", none, none, none, 0⟩

/-- A blog write payload. -/
def exBlogIn : BlogPostIn := ⟨"T", "t", none, "", none, [], true⟩

/-- A raw experience body whose `startDate` is present but not a date. -/
def exBadDatePayload : Doc :=
  [("company", .vStr "Acme"), ("role", .vStr "Dev"),
   ("startDate", .vStr "not-a-date")]

/-! ### Lemmas and claim theorems -/

theorem docGet_docSet_self (d : Doc) (k : String) (v : Value) :
    docGet (docSet d k v) k = some v := by
  induction d with
  | nil => simp [docSet, docGet]
  | cons kv rest ih =>
    by_cases h : kv.1 = k <;> simp [docSet, docGet, h, ih]

theorem docGet_docSet_ne (d : Doc) (k k' : String) (v : Value) (h : k' ≠ k) :
    docGet (docSet d k' v) k = docGet d k := by
  induction d with
  | nil => simp [docSet, docGet, h]
  | cons kv rest ih =>
    obtain ⟨a, b⟩ := kv
    by_cases h2 : a = k'
    · subst h2
      simp [docSet, docGet, h]
    · by_cases h3 : a = k
      · subst h3
        simp [docSet, docGet, h2]
      · simp [docSet, docGet, h2, h3, ih]

theorem docGet_eq_none_of_not_mem_keys {d : Doc} {k : String} (h : k ∉ keys d) :
    docGet d k = none := by
  induction d with
  | nil => rfl
  | cons kv rest ih =>
    have h1 : kv.1 ≠ k := fun hh => h (by simp [keys, hh])
    have h2 : k ∉ keys rest := fun hh => h (by simp [keys] at hh ⊢; tauto)
    simp [docGet, h1, ih h2]

theorem mem_keys_docSet {d : Doc} {k a : String} {v : Value}
    (ha : a ∈ keys (docSet d k v)) : a = k ∨ a ∈ keys d := by
  induction d with
  | nil => simpa [docSet, keys] using ha
  | cons kv rest ih =>
    by_cases h : kv.1 = k
    · simp only [docSet, if_pos h, keys, List.map_cons, List.mem_cons] at ha
      rcases ha with ha | ha
      · exact Or.inl ha
      · exact Or.inr (by simp [keys]; exact Or.inr (by simpa [keys] using ha))
    · simp only [docSet, if_neg h, keys, List.map_cons, List.mem_cons] at ha
      rcases ha with ha | ha
      · exact Or.inr (by simp [keys, ha])
      · rcases ih (by simpa [keys] using ha) with hh | hh
        · exact Or.inl hh
        · exact Or.inr (by simp [keys] at hh ⊢; tauto)

theorem mem_keys_applySet {fs : Doc} {a : String} {d : Doc}
    (ha : a ∈ keys (applySet d fs)) : a ∈ keys fs ∨ a ∈ keys d := by
  induction fs generalizing d with
  | nil => exact Or.inr ha
  | cons kv rest ih =>
    have h1 : applySet d (kv :: rest) = applySet (docSet d kv.1 kv.2) rest := rfl
    rw [h1] at ha
    rcases ih ha with h | h
    · exact Or.inl (by simp [keys] at h ⊢; tauto)
    · rcases mem_keys_docSet h with h | h
      · exact Or.inl (by simp [keys, h])
      · exact Or.inr h

theorem docGet_applySet_of_not_key {fs : Doc} {k : String} (d : Doc)
    (h : k ∉ keys fs) : docGet (applySet d fs) k = docGet d k := by
  induction fs generalizing d with
  | nil => rfl
  | cons kv rest ih =>
    have h1 : kv.1 ≠ k := fun hh => h (by simp [keys, hh])
    have h2 : k ∉ keys rest := fun hh => h (by simp [keys] at hh ⊢; tauto)
    have h3 : applySet d (kv :: rest) = applySet (docSet d kv.1 kv.2) rest := rfl
    rw [h3, ih (docSet d kv.1 kv.2) h2, docGet_docSet_ne d k kv.1 kv.2 h1]

theorem docGet_applySet (fs : Doc) (d : Doc) (k : String)
    (hnd : (keys fs).Nodup) :
    docGet (applySet d fs) k =
      ((docGet fs k).rec (docGet d k) (fun v => some v) : Option Value) := by
  induction fs generalizing d with
  | nil => rfl
  | cons kv rest ih =>
    have h1 : applySet d (kv :: rest) = applySet (docSet d kv.1 kv.2) rest := rfl
    simp only [keys, List.map_cons, List.nodup_cons] at hnd
    by_cases h : kv.1 = k
    · have hrest : docGet rest k = none :=
        docGet_eq_none_of_not_mem_keys (by rw [← h]; exact hnd.1)
      rw [h1, ih (docSet d kv.1 kv.2) hnd.2]
      simp [docGet, h, hrest, h ▸ docGet_docSet_self d kv.1 kv.2]
    · rw [h1, ih (docSet d kv.1 kv.2) hnd.2]
      simp only [docGet, if_neg h]
      cases hr : docGet rest k
      · simp [docGet_docSet_ne d k kv.1 kv.2 h]
      · simp

theorem docGet_isSome_of_mem_keys {d : Doc} {k : String} (h : k ∈ keys d) :
    (docGet d k).isSome := by
  induction d with
  | nil => simp [keys] at h
  | cons kv rest ih =>
    by_cases hk : kv.1 = k
    · simp [docGet, hk]
    · have h2 : k ∈ keys rest := by
        simp [keys] at h
        rcases h with h | h
        · exact absurd (Eq.symm h) hk
        · simp [keys]; exact h
      simp [docGet, hk, ih h2]

theorem lexLe_total (a b : List Nat) : lexLe a b || lexLe b a := by
  induction a generalizing b with
  | nil => simp [lexLe]
  | cons x xs ih =>
    cases b with
    | nil => simp [lexLe]
    | cons y ys =>
      rcases Nat.lt_trichotomy x y with h | h | h
      · simp [lexLe, h]
      · subst h
        simpa [lexLe] using ih ys
      · simp [lexLe, h, Nat.lt_asymm h]

theorem lexLe_trans {a b c : List Nat} (h1 : lexLe a b) (h2 : lexLe b c) :
    lexLe a c := by
  induction a generalizing b c with
  | nil => simp [lexLe]
  | cons x xs ih =>
    cases b with
    | nil => simp [lexLe] at h1
    | cons y ys =>
      cases c with
      | nil => simp [lexLe] at h2
      | cons z zs =>
        simp only [lexLe] at h1 h2 ⊢
        rcases Nat.lt_trichotomy x y with hxy | hxy | hxy
        · rcases Nat.lt_trichotomy y z with hyz | hyz | hyz
          · simp [Nat.lt_trans hxy hyz]
          · subst hyz; simp [hxy]
          · simp [hyz, Nat.lt_asymm hyz] at h2
        · subst hxy
          rcases Nat.lt_trichotomy x z with hyz | hyz | hyz
          · simp [hyz]
          · subst hyz
            simp [Nat.lt_irrefl] at h1 h2 ⊢
            exact ih h1 h2
          · simp [hyz, Nat.lt_asymm hyz] at h2
        · simp [hxy, Nat.lt_asymm hxy] at h1

theorem strLe_total (s t : String) : strLe s t || strLe t s :=
  lexLe_total _ _

theorem strLe_trans {s t u : String} (h1 : strLe s t) (h2 : strLe t u) :
    strLe s u :=
  lexLe_trans h1 h2

theorem valLe_total (a b : Value) : valLe a b || valLe b a := by
  cases a <;> cases b
  case vInt.vInt x y => simpa [valLe] using Int.le_total x y
  case vStr.vStr x y => exact strLe_total x y
  case vOid.vOid x y => exact strLe_total x y
  case vBool.vBool x y => cases x <;> cases y <;> decide
  all_goals simp [valLe, valRank]

theorem valLe_trans {a b c : Value} (h1 : valLe a b) (h2 : valLe b c) :
    valLe a c := by
  cases a <;> cases b <;> cases c
  case vInt.vInt.vInt x y z =>
    simp only [valLe, decide_eq_true_eq] at h1 h2 ⊢
    omega
  case vStr.vStr.vStr x y z => exact strLe_trans h1 h2
  case vOid.vOid.vOid x y z => exact strLe_trans h1 h2
  case vBool.vBool.vBool x y z =>
    revert h1 h2
    cases x <;> cases y <;> cases z <;> decide
  all_goals simp_all [valLe, valRank]

theorem mem_insertBy {le : Doc → Doc → Bool} {d x : Doc} {l : List Doc} :
    x ∈ insertBy le d l ↔ x = d ∨ x ∈ l := by
  induction l with
  | nil => simp [insertBy]
  | cons e es ih =>
    by_cases h : le d e
    · simp [insertBy, h]
    · simp [insertBy, h, ih]
      tauto

theorem mem_sortBy {le : Doc → Doc → Bool} {x : Doc} {l : List Doc} :
    x ∈ sortBy le l ↔ x ∈ l := by
  induction l with
  | nil => simp [sortBy]
  | cons d ds ih => simp [sortBy, mem_insertBy, ih]

theorem length_insertBy (le : Doc → Doc → Bool) (d : Doc) (l : List Doc) :
    (insertBy le d l).length = l.length + 1 := by
  induction l with
  | nil => rfl
  | cons e es ih =>
    by_cases h : le d e <;> simp [insertBy, h, ih]

theorem length_sortBy (le : Doc → Doc → Bool) (l : List Doc) :
    (sortBy le l).length = l.length := by
  induction l with
  | nil => rfl
  | cons d ds ih => simp [sortBy, length_insertBy, ih]

theorem pairwise_insertBy {le : Doc → Doc → Bool}
    (htot : ∀ a b, le a b || le b a)
    (htrans : ∀ a b c, le a b → le b c → le a c)
    {d : Doc} {l : List Doc} (hl : l.Pairwise (fun a b => le a b = true)) :
    (insertBy le d l).Pairwise (fun a b => le a b = true) := by
  induction l with
  | nil => simp [insertBy]
  | cons e es ih =>
    rcases List.pairwise_cons.1 hl with ⟨he, hes⟩
    by_cases h : le d e
    · rw [show insertBy le d (e :: es) = d :: e :: es from by simp [insertBy, h]]
      refine List.pairwise_cons.2 ⟨?_, hl⟩
      intro x hx
      rcases List.mem_cons.1 hx with hx | hx
      · exact hx ▸ h
      · exact htrans d e x h (he x hx)
    · have hed : le e d := by
        rcases Bool.or_eq_true_iff.1 (htot d e) with hh | hh
        · exact absurd hh h
        · exact hh
      rw [show insertBy le d (e :: es) = e :: insertBy le d es from by
            simp [insertBy, h]]
      refine List.pairwise_cons.2 ⟨?_, ih hes⟩
      intro x hx
      rcases mem_insertBy.1 hx with hx | hx
      · exact hx ▸ hed
      · exact he x hx

theorem pairwise_sortBy {le : Doc → Doc → Bool}
    (htot : ∀ a b, le a b || le b a)
    (htrans : ∀ a b c, le a b → le b c → le a c)
    (l : List Doc) :
    (sortBy le l).Pairwise (fun a b => le a b = true) := by
  induction l with
  | nil => simp [sortBy]
  | cons d ds ih => exact pairwise_insertBy htot htrans ih

theorem update_one_of_none {coll : List Doc} {filter upd : Doc}
    (h : ∀ d ∈ coll, docMatches filter d = false) :
    update_one coll filter upd = (coll, 0) := by
  induction coll with
  | nil => rfl
  | cons d rest ih =>
    have hd := h d (by simp)
    simp [update_one, hd, ih (fun x hx => h x (by simp [hx]))]

theorem update_one_of_match (coll : List Doc) (filter upd : Doc)
    (h : ∃ d ∈ coll, docMatches filter d = true) :
    ∃ l1 d l2, coll = l1 ++ d :: l2 ∧
      (∀ d' ∈ l1, docMatches filter d' = false) ∧
      docMatches filter d = true ∧
      update_one coll filter upd = (l1 ++ applySet d upd :: l2, 1) := by
  induction coll with
  | nil => simp at h
  | cons d rest ih =>
    by_cases hd : docMatches filter d
    · exact ⟨[], d, rest, by simp, by simp, hd, by simp [update_one, hd]⟩
    · have hrest : ∃ x ∈ rest, docMatches filter x = true := by
        rcases h with ⟨x, hx, hmx⟩
        rcases List.mem_cons.1 hx with hx | hx
        · exact absurd (hx ▸ hmx) (by simpa using hd)
        · exact ⟨x, hx, hmx⟩
      rcases ih hrest with ⟨l1, x, l2, hcoll, hl1, hmx, heq⟩
      refine ⟨d :: l1, x, l2, by simp [hcoll], ?_, hmx, ?_⟩
      · intro d' hd'
        rcases List.mem_cons.1 hd' with hd' | hd'
        · simpa [hd'] using hd
        · exact hl1 d' hd'
      · simp [update_one, hd, heq]

theorem update_one_count_zero {coll : List Doc} {filter upd : Doc}
    (h : (update_one coll filter upd).2 = 0) :
    (update_one coll filter upd).1 = coll := by
  induction coll with
  | nil => rfl
  | cons d rest ih =>
    by_cases hd : docMatches filter d
    · simp [update_one, hd] at h
    · simp only [update_one, if_neg hd] at h ⊢
      simp [ih h]

theorem delete_one_of_none {coll : List Doc} {filter : Doc}
    (h : ∀ d ∈ coll, docMatches filter d = false) :
    delete_one coll filter = (coll, 0) := by
  induction coll with
  | nil => rfl
  | cons d rest ih =>
    have hd := h d (by simp)
    simp [delete_one, hd, ih (fun x hx => h x (by simp [hx]))]

theorem delete_one_count_le_one (coll : List Doc) (filter : Doc) :
    (delete_one coll filter).2 = 0 ∨ (delete_one coll filter).2 = 1 := by
  induction coll with
  | nil => simp [delete_one]
  | cons d rest ih =>
    by_cases hd : docMatches filter d <;> simp [delete_one, hd, ih]

theorem delete_one_count_zero {coll : List Doc} {filter : Doc}
    (h : (delete_one coll filter).2 = 0) :
    (delete_one coll filter).1 = coll := by
  induction coll with
  | nil => rfl
  | cons d rest ih =>
    by_cases hd : docMatches filter d
    · simp [delete_one, hd] at h
    · simp only [delete_one, if_neg hd] at h ⊢
      simp [ih h]

theorem delete_one_count_zero_of_none {coll : List Doc} {filter : Doc}
    (h : ∀ d ∈ coll, docMatches filter d = false) :
    (delete_one coll filter).2 = 0 := by
  simp [delete_one_of_none h]

theorem delete_one_of_count_one {coll : List Doc} {filter : Doc}
    (h : (delete_one coll filter).2 = 1) :
    ∃ l1 d l2, coll = l1 ++ d :: l2 ∧
      (∀ d' ∈ l1, docMatches filter d' = false) ∧
      docMatches filter d = true ∧
      (delete_one coll filter).1 = l1 ++ l2 := by
  induction coll with
  | nil => simp [delete_one] at h
  | cons d rest ih =>
    by_cases hd : docMatches filter d
    · exact ⟨[], d, rest, by simp, by simp, hd, by simp [delete_one, hd]⟩
    · simp only [delete_one, if_neg hd] at h ⊢
      rcases ih h with ⟨l1, x, l2, hcoll, hl1, hmx, heq⟩
      refine ⟨d :: l1, x, l2, by simp [hcoll], ?_, hmx, by simp [heq]⟩
      intro d' hd'
      rcases List.mem_cons.1 hd' with hd' | hd'
      · simpa [hd'] using hd
      · exact hl1 d' hd'

theorem mem_of_mem_keys_filter {d : Doc} {a : String} {p : String × Value → Bool}
    (h : a ∈ keys (d.filter p)) : a ∈ keys d := by
  simp only [keys, List.mem_map] at h ⊢
  rcases h with ⟨kv, hkv, rfl⟩
  exact ⟨kv, List.mem_of_mem_filter hkv, rfl⟩

theorem docGet_filter_ne {d : Doc} {k k0 : String} (h : k ≠ k0) :
    docGet (d.filter (fun kv => kv.1 ≠ k0)) k = docGet d k := by
  induction d with
  | nil => rfl
  | cons kv rest ih =>
    obtain ⟨a, b⟩ := kv
    simp only [ne_eq, decide_not] at ih
    by_cases hk : a = k0
    · subst hk
      simp [List.filter_cons, docGet, ih, Ne.symm h]
    · by_cases hk2 : a = k <;> simp [List.filter_cons, docGet, h, hk, hk2, ih]

/-- `"_id"` never survives response shaping. -/
theorem not_id_mem_keys_shapeDoc (d : Doc) : "_id" ∉ keys (shapeDoc d) := by
  intro h
  rcases mem_keys_applySet h with h | h
  · rcases List.mem_map.1 h with ⟨kv, hkv, hfst⟩
    have := List.of_mem_filter hkv
    simp [hfst] at this
  · simp [keys] at h

/-- For a document without an `"id"` key of its own, shaping exposes the
store id as the string field `"id"`. -/
theorem docGet_shapeDoc_id {d : Doc} (h : "id" ∉ keys d) :
    docGet (shapeDoc d) "id" = some (.vStr (valueToStr (docGetD d "_id" .vNull))) := by
  unfold shapeDoc
  rw [docGet_applySet_of_not_key _ (fun hh => h (mem_of_mem_keys_filter hh))]
  simp [docGet]

/-- Shaping preserves every field other than `"id"` and `"_id"`, for
documents with unique keys (every real dict). -/
theorem docGet_shapeDoc_other {d : Doc} {k : String}
    (hnd : (keys d).Nodup) (h1 : k ≠ "id") (h2 : k ≠ "_id") :
    docGet (shapeDoc d) k = docGet d k := by
  unfold shapeDoc
  have hsub : List.Sublist (keys (d.filter (fun kv => kv.1 ≠ "_id"))) (keys d) :=
    (List.filter_sublist d).map Prod.fst
  rw [docGet_applySet _ _ _ (hnd.sublist hsub)]
  rw [docGet_filter_ne h2]
  cases hk : docGet d k
  · simp [docGet, h1.symm]
  · simp

/-! ### Session-gate lemmas -/

theorem sessionAdmin_docSet_true (s : Session) :
    sessionAdmin (docSet s "admin" (.vBool true)) = true := by
  simp [sessionAdmin, docGet_docSet_self, truthy]

theorem admin_login_ok_session {env : Option String} {pw : String}
    {s s' : Session} {resp : Doc}
    (h : admin_login env pw s = .ok (s', resp)) :
    s' = docSet s "admin" (.vBool true) := by
  by_cases hc : pw = env.getD "admin"
  · simp only [admin_login, if_pos hc, Except.ok.injEq, Prod.mk.injEq] at h
    exact h.1.symm
  · simp [admin_login, hc] at h

theorem handleAdmin_unauthorized {s : Session} (r : AdminReq) (st : Store)
    (now : Int) (newId : String) (h : sessionAdmin s = false) :
    handleAdmin r s st now newId = (.error ⟨401, "Unauthorized"⟩, st) := by
  simp [handleAdmin, admin_required, h]

theorem runUpdate_error_status {coll : List Doc} {id : String} {dump : Doc}
    {now : Int} {e : Err} (h : (runUpdate coll id dump now).1 = .error e) :
    e.status = 400 ∨ e.status = 404 := by
  by_cases hv : isValidObjectId id
  · by_cases hz : (update_one coll (idFilter id) (dump ++ [("updated_at", .vInt now)])).2 = 0
    · simp [runUpdate, hv, idFilter] at h
      rw [if_pos (by simpa [idFilter] using hz)] at h
      simp at h
      right; rw [← h]
    · simp [runUpdate, hv, idFilter] at h
      rw [if_neg (by simpa [idFilter] using hz)] at h
      simp at h
  · simp [runUpdate, hv] at h
    left; rw [← h]

theorem runDelete_error_status {coll : List Doc} {id : String} {e : Err}
    (h : (runDelete coll id).1 = .error e) : e.status = 400 := by
  by_cases hv : isValidObjectId id
  · simp [runDelete, hv] at h
  · simp [runDelete, hv] at h
    rw [← h]

theorem handleAdmin_authorized_no_401 {s : Session} (r : AdminReq) (st : Store)
    (now : Int) (newId : String) (hs : sessionAdmin s = true) {e : Err}
    (h : (handleAdmin r s st now newId).1 = .error e) : e.status ≠ 401 := by
  have hok : admin_required s = .ok () := by simp [admin_required, hs]
  cases r <;>
    simp only [handleAdmin, hok] at h <;>
    first
      | (rcases runUpdate_error_status h with h4 | h4 <;> omega)
      | (have h4 := runDelete_error_status h; omega)
      | simp [runCreate] at h

/-- C1: every admin write route (create/update/delete on skills,
experiences, blogs) answers 401 Unauthorized while the session is not
authorized; after a successful login the same request is never rejected
with a 401 by the gate; and after `logout()` (which clears the session)
it answers 401 Unauthorized again. -/
theorem claim1_admin_gate_lifecycle (r : AdminReq) (s : Session) (st : Store)
    (now : Int) (newId : String) :
    (sessionAdmin s = false →
        handleAdmin r s st now newId = (.error ⟨401, "Unauthorized"⟩, st)) ∧
    (∀ env pw s' resp, admin_login env pw s = .ok (s', resp) →
        ∀ e, (handleAdmin r s' st now newId).1 = .error e → e.status ≠ 401) ∧
    (handleAdmin r (admin_logout s).1 st now newId =
        (.error ⟨401, "Unauthorized"⟩, st)) := by
  refine ⟨fun h => handleAdmin_unauthorized r st now newId h, ?_, ?_⟩
  · intro env pw s' resp hlog e he
    have hs' : sessionAdmin s' = true := by
      rw [admin_login_ok_session hlog]; exact sessionAdmin_docSet_true s
    exact handleAdmin_authorized_no_401 r st now newId hs' he
  · exact handleAdmin_unauthorized r st now newId rfl

/-- Witness for C1: on the empty session the delete route answers 401;
after `login` with the default password the same request reaches the
handler and answers 400 (not 401). -/
theorem claim1_admin_gate_lifecycle_witness :
    handleAdmin (.deleteSkill "not-an-id") [] ⟨[], [], []⟩ 0 "x" =
      (.error ⟨401, "Unauthorized"⟩, ⟨[], [], []⟩) ∧
    (400 : Nat) ≠ 401 := by
  have h := claim1_admin_gate_lifecycle (.deleteSkill "not-an-id") [] ⟨[], [], []⟩ 0 "x"
  refine ⟨h.1 rfl, ?_⟩
  exact h.2.1 none "admin" [("admin", .vBool true)] [("ok", .vBool true)] rfl
    ⟨400, "Invalid id"⟩ rfl

/-- C3: `login(password)` succeeds exactly when the password equals the
configured secret (`ADMIN_PASSWORD`, default `"admin"`); on success the
session gains a truthy `admin` flag — so `check_session()` then reports
true — and on mismatch it answers 401 Invalid credentials, producing no
new session state. -/
theorem claim3_login_iff (env : Option String) (pw : String) (s : Session) :
    (∀ s' resp, admin_login env pw s = .ok (s', resp) →
        pw = env.getD "admin" ∧ s' = docSet s "admin" (.vBool true) ∧
        resp = [("ok", .vBool true)] ∧ sessionAdmin s' = true ∧
        admin_session s' = [("admin", .vBool true)]) ∧
    (pw = env.getD "admin" →
        admin_login env pw s = .ok (docSet s "admin" (.vBool true), [("ok", .vBool true)])) ∧
    (pw ≠ env.getD "admin" →
        admin_login env pw s = .error ⟨401, "Invalid credentials"⟩) := by
  refine ⟨?_, ?_, ?_⟩
  · intro s' resp hok
    by_cases h : pw = env.getD "admin"
    · simp only [admin_login, if_pos h, Except.ok.injEq, Prod.mk.injEq] at hok
      refine ⟨h, hok.1.symm, hok.2.symm, ?_, ?_⟩
      · rw [← hok.1]; exact sessionAdmin_docSet_true s
      · rw [admin_session, ← hok.1, sessionAdmin_docSet_true s]
    · simp [admin_login, h] at hok
  · intro h; simp [admin_login, h]
  · intro h; simp [admin_login, h]

/-- Witness for C3: a correct password is accepted and marks the session;
a wrong one is rejected with 401. -/
theorem claim3_login_iff_witness :
    (admin_login (some "p4ss") "p4ss" [] =
        .ok ([("admin", .vBool true)], [("ok", .vBool true)]) ∧
      sessionAdmin [("admin", Value.vBool true)] = true) ∧
    admin_login (some "p4ss") "wrong" [] = .error ⟨401, "Invalid credentials"⟩ := by
  constructor
  · have h := (claim3_login_iff (some "p4ss") "p4ss" []).1
      [("admin", .vBool true)] [("ok", .vBool true)] rfl
    exact ⟨(claim3_login_iff (some "p4ss") "p4ss" []).2.1 rfl, h.2.2.2.1⟩
  · exact (claim3_login_iff (some "p4ss") "wrong" []).2.2 (by decide)

/-- C8: with `ADMIN_PASSWORD` unset, `os.getenv("ADMIN_PASSWORD", "admin")`
falls back to the well-known default `"admin"`, so login with `"admin"`
always succeeds. -/
theorem claim8_default_password (s : Session) :
    admin_login none "admin" s =
      .ok (docSet s "admin" (.vBool true), [("ok", .vBool true)]) := by
  simp [admin_login]

/-! ### Delete / update route lemmas -/

theorem runDelete_invalid (coll : List Doc) (id : String)
    (h : isValidObjectId id = false) :
    runDelete coll id = (.error ⟨400, "Invalid id"⟩, coll) := by
  simp [runDelete, h]

theorem runDelete_behaves {coll : List Doc} {id : String}
    (hv : isValidObjectId id = true) :
    deleteBehaves coll id (runDelete coll id) := by
  refine ⟨(delete_one coll (idFilter id)).2, ?_, ?_, ?_, ?_⟩
  · simp [runDelete, hv, idFilter]
  · exact delete_one_count_le_one coll (idFilter id)
  · intro hnone
    have h0 := delete_one_count_zero_of_none hnone
    refine ⟨h0, ?_⟩
    simp only [runDelete, if_pos hv]
    exact delete_one_count_zero h0
  · intro h1
    rcases delete_one_of_count_one h1 with ⟨l1, d, l2, hc, _, hm, heq⟩
    refine ⟨l1, d, l2, hc, hm, ?_⟩
    simp only [runDelete, if_pos hv]
    exact heq

theorem handleAdmin_delete_eq (id : String) (s : Session) (st : Store)
    (now : Int) (newId : String) (hs : sessionAdmin s = true) :
    handleAdmin (.deleteSkill id) s st now newId =
      ((runDelete st.skill id).1, { st with skill := (runDelete st.skill id).2 }) ∧
    handleAdmin (.deleteExperience id) s st now newId =
      ((runDelete st.experience id).1, { st with experience := (runDelete st.experience id).2 }) ∧
    handleAdmin (.deleteBlog id) s st now newId =
      ((runDelete st.blogpost id).1, { st with blogpost := (runDelete st.blogpost id).2 }) := by
  have hok : admin_required s = .ok () := by simp [admin_required, hs]
  refine ⟨?_, ?_, ?_⟩ <;> simp [handleAdmin, hok]

/-- C5: with an authorized session, each delete route answers 400 Invalid
id for a malformed id, leaving the store untouched; for a well-formed id
it never fails: it answers `{"deleted": n}` with `n ∈ {0, 1}`, reports
`n = 0` with no change when no document matches, and for `n = 1` removes
exactly the first matching document, leaving the other collections
untouched. -/
theorem claim5_delete_contract (st : Store) (s : Session) (id : String)
    (now : Int) (newId : String) (hs : sessionAdmin s = true) :
    (isValidObjectId id = false →
      handleAdmin (.deleteSkill id) s st now newId = (.error ⟨400, "Invalid id"⟩, st) ∧
      handleAdmin (.deleteExperience id) s st now newId = (.error ⟨400, "Invalid id"⟩, st) ∧
      handleAdmin (.deleteBlog id) s st now newId = (.error ⟨400, "Invalid id"⟩, st)) ∧
    (isValidObjectId id = true →
      (deleteBehaves st.skill id
          ((handleAdmin (.deleteSkill id) s st now newId).1,
           (handleAdmin (.deleteSkill id) s st now newId).2.skill) ∧
        (handleAdmin (.deleteSkill id) s st now newId).2.experience = st.experience ∧
        (handleAdmin (.deleteSkill id) s st now newId).2.blogpost = st.blogpost) ∧
      (deleteBehaves st.experience id
          ((handleAdmin (.deleteExperience id) s st now newId).1,
           (handleAdmin (.deleteExperience id) s st now newId).2.experience) ∧
        (handleAdmin (.deleteExperience id) s st now newId).2.skill = st.skill ∧
        (handleAdmin (.deleteExperience id) s st now newId).2.blogpost = st.blogpost) ∧
      (deleteBehaves st.blogpost id
          ((handleAdmin (.deleteBlog id) s st now newId).1,
           (handleAdmin (.deleteBlog id) s st now newId).2.blogpost) ∧
        (handleAdmin (.deleteBlog id) s st now newId).2.skill = st.skill ∧
        (handleAdmin (.deleteBlog id) s st now newId).2.experience = st.experience)) := by
  rcases handleAdmin_delete_eq id s st now newId hs with ⟨h1, h2, h3⟩
  constructor
  · intro hv
    rw [h1, h2, h3, runDelete_invalid st.skill id hv,
        runDelete_invalid st.experience id hv, runDelete_invalid st.blogpost id hv]
    exact ⟨rfl, rfl, rfl⟩
  · intro hv
    refine ⟨⟨?_, ?_, ?_⟩, ⟨?_, ?_, ?_⟩, ⟨?_, ?_, ?_⟩⟩ <;>
      simp only [h1, h2, h3] <;>
      exact runDelete_behaves hv

/-- Witness for C5: a malformed id answers 400 against the example store;
a well-formed absent id deletes nothing and answers `{"deleted": 0}`. -/
theorem claim5_delete_contract_witness :
    handleAdmin (.deleteSkill "not-an-id") exAuthSession exStore 0 "x" =
      (.error ⟨400, "Invalid id"⟩, exStore) ∧
    deleteBehaves exStore.skill "ffffffffffffffffffffffff"
      ((handleAdmin (.deleteSkill "ffffffffffffffffffffffff") exAuthSession exStore 0 "x").1,
       (handleAdmin (.deleteSkill "ffffffffffffffffffffffff") exAuthSession exStore 0 "x").2.skill) := by
  constructor
  · exact ((claim5_delete_contract exStore exAuthSession "not-an-id" 0 "x" rfl).1 (by decide)).1
  · exact (((claim5_delete_contract exStore exAuthSession "ffffffffffffffffffffffff" 0 "x" rfl).2
      (by decide)).1).1

/-! ### Update route lemmas -/

theorem exists_match_of_update_one_pos {coll : List Doc} {f u : Doc}
    (h : (update_one coll f u).2 ≠ 0) : ∃ d ∈ coll, docMatches f d = true := by
  induction coll with
  | nil => simp [update_one] at h
  | cons d rest ih =>
    by_cases hd : docMatches f d
    · exact ⟨d, by simp, hd⟩
    · simp only [update_one, if_neg hd] at h
      rcases ih h with ⟨x, hx, hmx⟩
      exact ⟨x, by simp [hx], hmx⟩

theorem docGet_applySet_of_get {fs : Doc} {k : String} {v : Value} (d : Doc)
    (hnd : (keys fs).Nodup) (h : docGet fs k = some v) :
    docGet (applySet d fs) k = some v := by
  rw [docGet_applySet fs d k hnd, h]

theorem runUpdate_invalid (coll : List Doc) (id : String) (dump : Doc)
    (now : Int) (h : isValidObjectId id = false) :
    runUpdate coll id dump now = (.error ⟨400, "Invalid id"⟩, coll) := by
  simp [runUpdate, h]

theorem runUpdate_none (coll : List Doc) (id : String) (dump : Doc)
    (now : Int) (hv : isValidObjectId id = true)
    (h : ∀ d ∈ coll, docMatches (idFilter id) d = false) :
    runUpdate coll id dump now = (.error ⟨404, "Not found"⟩, coll) := by
  simp only [runUpdate, if_pos hv, update_one_of_none h]
  rfl

theorem runUpdate_ok_elim {coll : List Doc} {id : String} {dump : Doc}
    {now : Int} {res : Doc} {collNew : List Doc}
    (h : runUpdate coll id dump now = (.ok res, collNew)) :
    res = [("ok", .vBool true)] ∧
    updateApplied coll collNew id (dump ++ [("updated_at", .vInt now)]) := by
  by_cases hv : isValidObjectId id
  · simp only [runUpdate, if_pos hv] at h
    by_cases hz : (update_one coll (idFilter id) (dump ++ [("updated_at", .vInt now)])).2 = 0
    · rw [if_pos hz] at h
      exact absurd (congrArg Prod.fst h) (by simp)
    · rw [if_neg hz] at h
      have hm := exists_match_of_update_one_pos hz
      rcases update_one_of_match coll (idFilter id)
        (dump ++ [("updated_at", .vInt now)]) hm with ⟨l1, d, l2, hc, hl1, hmd, hequ⟩
      have hres := congrArg Prod.fst h
      have hcoll := congrArg Prod.snd h
      simp only at hres hcoll
      rw [hequ] at hcoll
      refine ⟨by exact (Except.ok.inj hres).symm, l1, d, l2, hc, hl1, hmd, hcoll.symm⟩
  · rw [runUpdate_invalid coll id dump now (by simpa using hv)] at h
    exact absurd (congrArg Prod.fst h) (by simp)

theorem runUpdate_found (coll : List Doc) (id : String) (dump : Doc)
    (now : Int) (hv : isValidObjectId id = true)
    (h : ∃ d ∈ coll, docMatches (idFilter id) d = true) :
    ∃ collNew, runUpdate coll id dump now = (.ok [("ok", .vBool true)], collNew) ∧
      updateApplied coll collNew id (dump ++ [("updated_at", .vInt now)]) := by
  rcases update_one_of_match coll (idFilter id)
    (dump ++ [("updated_at", .vInt now)]) h with ⟨l1, d, l2, hc, hl1, hmd, hequ⟩
  refine ⟨l1 ++ applySet d (dump ++ [("updated_at", .vInt now)]) :: l2, ?_,
    l1, d, l2, hc, hl1, hmd, rfl⟩
  simp [runUpdate, hv, hequ]

theorem handleAdmin_update_eq (id : String) (s : Session) (st : Store)
    (now : Int) (newId : String) (pS : SkillIn) (pE : ExperienceIn)
    (pB : BlogPostIn) (hs : sessionAdmin s = true) :
    handleAdmin (.updateSkill id pS) s st now newId =
      ((runUpdate st.skill id pS.dump now).1,
       { st with skill := (runUpdate st.skill id pS.dump now).2 }) ∧
    handleAdmin (.updateExperience id pE) s st now newId =
      ((runUpdate st.experience id pE.dump now).1,
       { st with experience := (runUpdate st.experience id pE.dump now).2 }) ∧
    handleAdmin (.updateBlog id pB) s st now newId =
      ((runUpdate st.blogpost id pB.dump now).1,
       { st with blogpost := (runUpdate st.blogpost id pB.dump now).2 }) := by
  have hok : admin_required s = .ok () := by simp [admin_required, hs]
  refine ⟨?_, ?_, ?_⟩ <;> simp [handleAdmin, hok]

theorem skill_update_keys (p : SkillIn) (now : Int) :
    keys (SkillIn.dump p ++ [("updated_at", Value.vInt now)]) =
      ["title", "slug", "icon", "summary", "link", "tags", "order", "updated_at"] :=
  rfl

theorem experience_update_keys (p : ExperienceIn) (now : Int) :
    keys (ExperienceIn.dump p ++ [("updated_at", Value.vInt now)]) =
      ["company", "role", "startDate", "endDate", "summary", "image", "order",
       "updated_at"] :=
  rfl

theorem blog_update_keys (p : BlogPostIn) (now : Int) :
    keys (BlogPostIn.dump p ++ [("updated_at", Value.vInt now)]) =
      ["title", "slug", "excerpt", "content", "coverImage", "tags", "published",
       "updated_at"] :=
  rfl

theorem skillFieldsSet_applySet (d : Doc) (p : SkillIn) (now : Int) :
    skillFieldsSet p now (applySet d (SkillIn.dump p ++ [("updated_at", .vInt now)])) := by
  have hnd : (keys (SkillIn.dump p ++ [("updated_at", Value.vInt now)])).Nodup := by
    rw [skill_update_keys]; decide
  exact ⟨docGet_applySet_of_get d hnd rfl, docGet_applySet_of_get d hnd rfl,
    docGet_applySet_of_get d hnd rfl, docGet_applySet_of_get d hnd rfl,
    docGet_applySet_of_get d hnd rfl, docGet_applySet_of_get d hnd rfl,
    docGet_applySet_of_get d hnd rfl, docGet_applySet_of_get d hnd rfl⟩

theorem experienceFieldsSet_applySet (d : Doc) (p : ExperienceIn) (now : Int) :
    experienceFieldsSet p now
      (applySet d (ExperienceIn.dump p ++ [("updated_at", .vInt now)])) := by
  have hnd : (keys (ExperienceIn.dump p ++ [("updated_at", Value.vInt now)])).Nodup := by
    rw [experience_update_keys]; decide
  exact ⟨docGet_applySet_of_get d hnd rfl, docGet_applySet_of_get d hnd rfl,
    docGet_applySet_of_get d hnd rfl, docGet_applySet_of_get d hnd rfl,
    docGet_applySet_of_get d hnd rfl, docGet_applySet_of_get d hnd rfl,
    docGet_applySet_of_get d hnd rfl, docGet_applySet_of_get d hnd rfl⟩

theorem blogFieldsSet_applySet (d : Doc) (p : BlogPostIn) (now : Int) :
    blogFieldsSet p now
      (applySet d (BlogPostIn.dump p ++ [("updated_at", .vInt now)])) := by
  have hnd : (keys (BlogPostIn.dump p ++ [("updated_at", Value.vInt now)])).Nodup := by
    rw [blog_update_keys]; decide
  exact ⟨docGet_applySet_of_get d hnd rfl, docGet_applySet_of_get d hnd rfl,
    docGet_applySet_of_get d hnd rfl, docGet_applySet_of_get d hnd rfl,
    docGet_applySet_of_get d hnd rfl, docGet_applySet_of_get d hnd rfl,
    docGet_applySet_of_get d hnd rfl, docGet_applySet_of_get d hnd rfl⟩

/-- C4: with an authorized session, each update route answers 400 Invalid
id for a malformed id with the store untouched; answers 404 Not found —
creating nothing, the store is exactly unchanged — when no document
carries the id; and otherwise succeeds with `{"ok": True}`, replacing the
first matching document's schema fields with the payload's values and
stamping `updated_at` with the current time, other collections untouched. -/
theorem claim4_update_contract (st : Store) (s : Session) (id : String)
    (now : Int) (newId : String) (pS : SkillIn) (pE : ExperienceIn)
    (pB : BlogPostIn) (hs : sessionAdmin s = true) :
    (isValidObjectId id = false →
      handleAdmin (.updateSkill id pS) s st now newId = (.error ⟨400, "Invalid id"⟩, st) ∧
      handleAdmin (.updateExperience id pE) s st now newId = (.error ⟨400, "Invalid id"⟩, st) ∧
      handleAdmin (.updateBlog id pB) s st now newId = (.error ⟨400, "Invalid id"⟩, st)) ∧
    (isValidObjectId id = true →
      ((∀ d ∈ st.skill, docMatches (idFilter id) d = false) →
        handleAdmin (.updateSkill id pS) s st now newId = (.error ⟨404, "Not found"⟩, st)) ∧
      ((∀ d ∈ st.experience, docMatches (idFilter id) d = false) →
        handleAdmin (.updateExperience id pE) s st now newId = (.error ⟨404, "Not found"⟩, st)) ∧
      ((∀ d ∈ st.blogpost, docMatches (idFilter id) d = false) →
        handleAdmin (.updateBlog id pB) s st now newId = (.error ⟨404, "Not found"⟩, st)) ∧
      ((∃ d ∈ st.skill, docMatches (idFilter id) d = true) →
        ∃ st', handleAdmin (.updateSkill id pS) s st now newId = (.ok [("ok", .vBool true)], st') ∧
          updateApplied st.skill st'.skill id (pS.dump ++ [("updated_at", .vInt now)]) ∧
          st'.experience = st.experience ∧ st'.blogpost = st.blogpost) ∧
      ((∃ d ∈ st.experience, docMatches (idFilter id) d = true) →
        ∃ st', handleAdmin (.updateExperience id pE) s st now newId = (.ok [("ok", .vBool true)], st') ∧
          updateApplied st.experience st'.experience id (pE.dump ++ [("updated_at", .vInt now)]) ∧
          st'.skill = st.skill ∧ st'.blogpost = st.blogpost) ∧
      ((∃ d ∈ st.blogpost, docMatches (idFilter id) d = true) →
        ∃ st', handleAdmin (.updateBlog id pB) s st now newId = (.ok [("ok", .vBool true)], st') ∧
          updateApplied st.blogpost st'.blogpost id (pB.dump ++ [("updated_at", .vInt now)]) ∧
          st'.skill = st.skill ∧ st'.experience = st.experience)) ∧
    (∀ d, skillFieldsSet pS now (applySet d (pS.dump ++ [("updated_at", .vInt now)]))) ∧
    (∀ d, experienceFieldsSet pE now (applySet d (pE.dump ++ [("updated_at", .vInt now)]))) ∧
    (∀ d, blogFieldsSet pB now (applySet d (pB.dump ++ [("updated_at", .vInt now)]))) := by
  rcases handleAdmin_update_eq id s st now newId pS pE pB hs with ⟨h1, h2, h3⟩
  refine ⟨?_, ?_, fun d => skillFieldsSet_applySet d pS now,
    fun d => experienceFieldsSet_applySet d pE now,
    fun d => blogFieldsSet_applySet d pB now⟩
  · intro hv
    rw [h1, h2, h3, runUpdate_invalid st.skill id pS.dump now hv,
        runUpdate_invalid st.experience id pE.dump now hv,
        runUpdate_invalid st.blogpost id pB.dump now hv]
    exact ⟨rfl, rfl, rfl⟩
  · intro hv
    refine ⟨?_, ?_, ?_, ?_, ?_, ?_⟩
    · intro hnone
      rw [h1, runUpdate_none st.skill id pS.dump now hv hnone]
    · intro hnone
      rw [h2, runUpdate_none st.experience id pE.dump now hv hnone]
    · intro hnone
      rw [h3, runUpdate_none st.blogpost id pB.dump now hv hnone]
    · intro hsome
      rcases runUpdate_found st.skill id pS.dump now hv hsome with ⟨cN, hr, hap⟩
      exact ⟨{ st with skill := cN }, by rw [h1, hr], hap, rfl, rfl⟩
    · intro hsome
      rcases runUpdate_found st.experience id pE.dump now hv hsome with ⟨cN, hr, hap⟩
      exact ⟨{ st with experience := cN }, by rw [h2, hr], hap, rfl, rfl⟩
    · intro hsome
      rcases runUpdate_found st.blogpost id pB.dump now hv hsome with ⟨cN, hr, hap⟩
      exact ⟨{ st with blogpost := cN }, by rw [h3, hr], hap, rfl, rfl⟩

/-- Witness for C4: against the example store, the update routes answer
400 on a malformed id, 404 on a well-formed absent id, and succeed on the
stored skill's id. -/
theorem claim4_update_contract_witness :
    handleAdmin (.updateSkill "not-an-id" exSkillIn) exAuthSession exStore 3 "x" =
      (.error ⟨400, "Invalid id"⟩, exStore) ∧
    handleAdmin (.updateSkill "ffffffffffffffffffffffff" exSkillIn) exAuthSession exStore 3 "x" =
      (.error ⟨404, "Not found"⟩, exStore) ∧
    (∃ st', handleAdmin (.updateSkill "0123456789abcdef01234567" exSkillIn) exAuthSession exStore 3 "x" =
      (.ok [("ok", .vBool true)], st') ∧
      updateApplied exStore.skill st'.skill "0123456789abcdef01234567"
        (exSkillIn.dump ++ [("updated_at", .vInt 3)]) ∧
      st'.experience = exStore.experience ∧ st'.blogpost = exStore.blogpost) := by
  refine ⟨?_, ?_, ?_⟩
  · exact ((claim4_update_contract exStore exAuthSession "not-an-id" 3 "x"
      exSkillIn exExperienceIn exBlogIn rfl).1 (by decide)).1
  · exact (((claim4_update_contract exStore exAuthSession "ffffffffffffffffffffffff" 3 "x"
      exSkillIn exExperienceIn exBlogIn rfl).2.1 (by decide)).1 (by decide))
  · exact (((claim4_update_contract exStore exAuthSession "0123456789abcdef01234567" 3 "x"
      exSkillIn exExperienceIn exBlogIn rfl).2.1 (by decide)).2.2.2.1
      ⟨exSkillDoc, by decide, by decide⟩)

/-- C10: a successful update is a field-wise `$set` of the schema fields
plus `updated_at` on the first matching document of that resource's
collection only: every stored field outside those keys — `created_at` in
particular — keeps its value, other documents of the collection are
untouched (`updateApplied` splits the collection around the one changed
document), and the other two collections are exactly unchanged. -/
theorem claim10_update_frame (st : Store) (s : Session) (id : String)
    (now : Int) (newId : String) (pS : SkillIn) (pE : ExperienceIn)
    (pB : BlogPostIn) :
    (∀ res st', handleAdmin (.updateSkill id pS) s st now newId = (.ok res, st') →
      st'.experience = st.experience ∧ st'.blogpost = st.blogpost ∧
      updateApplied st.skill st'.skill id (pS.dump ++ [("updated_at", .vInt now)])) ∧
    (∀ res st', handleAdmin (.updateExperience id pE) s st now newId = (.ok res, st') →
      st'.skill = st.skill ∧ st'.blogpost = st.blogpost ∧
      updateApplied st.experience st'.experience id (pE.dump ++ [("updated_at", .vInt now)])) ∧
    (∀ res st', handleAdmin (.updateBlog id pB) s st now newId = (.ok res, st') →
      st'.skill = st.skill ∧ st'.experience = st.experience ∧
      updateApplied st.blogpost st'.blogpost id (pB.dump ++ [("updated_at", .vInt now)])) ∧
    (∀ d k, k ∉ keys (pS.dump ++ [("updated_at", Value.vInt now)]) →
      docGet (applySet d (pS.dump ++ [("updated_at", .vInt now)])) k = docGet d k) ∧
    (∀ d k, k ∉ keys (pE.dump ++ [("updated_at", Value.vInt now)]) →
      docGet (applySet d (pE.dump ++ [("updated_at", .vInt now)])) k = docGet d k) ∧
    (∀ d k, k ∉ keys (pB.dump ++ [("updated_at", Value.vInt now)]) →
      docGet (applySet d (pB.dump ++ [("updated_at", .vInt now)])) k = docGet d k) ∧
    keys (pB.dump ++ [("updated_at", Value.vInt now)]) =
      ["title", "slug", "excerpt", "content", "coverImage", "tags", "published",
       "updated_at"] ∧
    (∀ d, docGet (applySet d (pB.dump ++ [("updated_at", .vInt now)])) "created_at" =
      docGet d "created_at") := by
  refine ⟨?_, ?_, ?_, ?_, ?_, ?_, blog_update_keys pB now, ?_⟩
  · intro res st' h
    cases hsa : sessionAdmin s with
    | false =>
      rw [handleAdmin_unauthorized (.updateSkill id pS) st now newId hsa] at h
      exact absurd (congrArg Prod.fst h) (by simp)
    | true =>
      rw [(handleAdmin_update_eq id s st now newId pS pE pB hsa).1] at h
      have hfst := congrArg Prod.fst h
      have hsnd := congrArg Prod.snd h
      simp only at hfst hsnd
      have hup : runUpdate st.skill id pS.dump now = (.ok res, st'.skill) :=
        Prod.ext_iff.2 ⟨hfst, by rw [← hsnd]⟩
      exact ⟨by rw [← hsnd], by rw [← hsnd], (runUpdate_ok_elim hup).2⟩
  · intro res st' h
    cases hsa : sessionAdmin s with
    | false =>
      rw [handleAdmin_unauthorized (.updateExperience id pE) st now newId hsa] at h
      exact absurd (congrArg Prod.fst h) (by simp)
    | true =>
      rw [(handleAdmin_update_eq id s st now newId pS pE pB hsa).2.1] at h
      have hfst := congrArg Prod.fst h
      have hsnd := congrArg Prod.snd h
      simp only at hfst hsnd
      have hup : runUpdate st.experience id pE.dump now = (.ok res, st'.experience) :=
        Prod.ext_iff.2 ⟨hfst, by rw [← hsnd]⟩
      exact ⟨by rw [← hsnd], by rw [← hsnd], (runUpdate_ok_elim hup).2⟩
  · intro res st' h
    cases hsa : sessionAdmin s with
    | false =>
      rw [handleAdmin_unauthorized (.updateBlog id pB) st now newId hsa] at h
      exact absurd (congrArg Prod.fst h) (by simp)
    | true =>
      rw [(handleAdmin_update_eq id s st now newId pS pE pB hsa).2.2] at h
      have hfst := congrArg Prod.fst h
      have hsnd := congrArg Prod.snd h
      simp only at hfst hsnd
      have hup : runUpdate st.blogpost id pB.dump now = (.ok res, st'.blogpost) :=
        Prod.ext_iff.2 ⟨hfst, by rw [← hsnd]⟩
      exact ⟨by rw [← hsnd], by rw [← hsnd], (runUpdate_ok_elim hup).2⟩
  · intro d k hk
    exact docGet_applySet_of_not_key d hk
  · intro d k hk
    exact docGet_applySet_of_not_key d hk
  · intro d k hk
    exact docGet_applySet_of_not_key d hk
  · intro d
    refine docGet_applySet_of_not_key d ?_
    rw [blog_update_keys pB now]
    decide

/-- Witness for C10: updating the stored skill changes only that
document, and a blog update document leaves `created_at` untouched. -/
theorem claim10_update_frame_witness :
    (∀ st', handleAdmin (.updateSkill "0123456789abcdef01234567" exSkillIn)
        exAuthSession exStore 3 "x" = (.ok [("ok", .vBool true)], st') →
      st'.experience = exStore.experience ∧ st'.blogpost = exStore.blogpost ∧
      updateApplied exStore.skill st'.skill "0123456789abcdef01234567"
        (exSkillIn.dump ++ [("updated_at", .vInt 3)])) ∧
    docGet (applySet exBlogA (exBlogIn.dump ++ [("updated_at", .vInt 3)])) "created_at" =
      docGet exBlogA "created_at" := by
  constructor
  · intro st' h
    exact (claim10_update_frame exStore exAuthSession "0123456789abcdef01234567" 3 "x"
      exSkillIn exExperienceIn exBlogIn).1 [("ok", .vBool true)] st' h
  · exact (claim10_update_frame exStore exAuthSession "0123456789abcdef01234567" 3 "x"
      exSkillIn exExperienceIn exBlogIn).2.2.2.2.2.2.2 exBlogA

/-! ### Public listing lemmas -/

theorem mem_mongoLimit {limit : Int} {l : List Doc} {x : Doc}
    (h : x ∈ mongoLimit limit l) : x ∈ l := by
  unfold mongoLimit at h
  split at h
  · exact h
  · exact List.mem_of_mem_take h

theorem length_mongoLimit_le {limit : Int} (l : List Doc) (h : limit ≠ 0) :
    (mongoLimit limit l).length ≤ limit.natAbs := by
  simp [mongoLimit, h]

theorem pairwise_mongoLimit (limit : Int) {l : List Doc}
    {P : Doc → Doc → Prop} (h : l.Pairwise P) :
    (mongoLimit limit l).Pairwise P := by
  unfold mongoLimit
  split
  · exact h
  · exact h.sublist (List.take_sublist _ _)

theorem mem_listing_pipeline {coll : List Doc} {filter : Doc}
    {le : Doc → Doc → Bool} {limit : Int} {r : Doc}
    (h : r ∈ (mongoLimit limit (sortBy le (mongoFind coll filter))).map shapeDoc) :
    ∃ d ∈ coll, docMatches filter d = true ∧ r = shapeDoc d := by
  rcases List.mem_map.1 h with ⟨d, hd, rfl⟩
  have hd2 : d ∈ mongoFind coll filter := mem_sortBy.1 (mem_mongoLimit hd)
  rcases List.mem_filter.1 hd2 with ⟨hdc, hdm⟩
  exact ⟨d, hdc, hdm, rfl⟩

theorem docMatches_published {d : Doc}
    (h : docMatches [("published", Value.vBool true)] d = true) :
    docGet d "published" = some (.vBool true) := by
  simpa [docMatches] using h

theorem mem_get_blogs {coll : List Doc} {limit : Int} {r : Doc}
    (h : r ∈ get_blogs coll limit) :
    ∃ d ∈ coll, docGet d "published" = some (.vBool true) ∧ r = shapeDoc d := by
  unfold get_blogs sortDescBy at h
  rcases mem_listing_pipeline h with ⟨d, hdc, hdm, hr⟩
  exact ⟨d, hdc, docMatches_published hdm, hr⟩

theorem pairwise_get_blogs (coll : List Doc) (limit : Int)
    (hnd : ∀ d ∈ coll, (keys d).Nodup) :
    (get_blogs coll limit).Pairwise createdAtDesc := by
  unfold get_blogs sortDescBy
  rw [List.pairwise_map]
  have hsorted :
      (sortBy (fun a b => valLe (docGetD b "created_at" .vNull) (docGetD a "created_at" .vNull))
        (mongoFind coll [("published", .vBool true)])).Pairwise
        (fun a b => valLe (docGetD b "created_at" .vNull) (docGetD a "created_at" .vNull) = true) :=
    pairwise_sortBy
      (fun a b =>
        valLe_total (docGetD b "created_at" .vNull) (docGetD a "created_at" .vNull))
      (fun a b c h1 h2 => valLe_trans h2 h1) _
  have hlim := pairwise_mongoLimit limit hsorted
  refine hlim.imp_of_mem ?_
  intro a b ha hb hab
  have ha2 : a ∈ coll := List.mem_of_mem_filter (mem_sortBy.1 (mem_mongoLimit ha))
  have hb2 : b ∈ coll := List.mem_of_mem_filter (mem_sortBy.1 (mem_mongoLimit hb))
  unfold createdAtDesc
  rw [docGetD, docGetD,
    docGet_shapeDoc_other (hnd a ha2) (by decide) (by decide),
    docGet_shapeDoc_other (hnd b hb2) (by decide) (by decide)]
  exact hab

/-- C2 (amended): the public blog listing returns only shaped copies of
stored documents with `published = true`; for every nonzero limit it is
truncated to at most `|limit|` documents (the route default is 100), while
`limit = 0` is MongoDB's "no limit" — every stored published document then
appears in the listing; and (for stores whose documents have unique keys,
as every real store) it is ordered by `created_at` descending. -/
theorem claim2_blog_listing (coll : List Doc) (limit : Int) :
    (∀ r ∈ get_blogs coll limit, ∃ d ∈ coll,
        docGet d "published" = some (.vBool true) ∧ r = shapeDoc d) ∧
    (limit ≠ 0 → (get_blogs coll limit).length ≤ limit.natAbs) ∧
    (limit = 0 → ∀ d ∈ coll, docGet d "published" = some (.vBool true) →
        shapeDoc d ∈ get_blogs coll limit) ∧
    ((∀ d ∈ coll, (keys d).Nodup) →
        (get_blogs coll limit).Pairwise createdAtDesc) := by
  refine ⟨fun r hr => mem_get_blogs hr, ?_, ?_, pairwise_get_blogs coll limit⟩
  · intro h
    unfold get_blogs
    rw [List.length_map]
    exact length_mongoLimit_le _ h
  · intro h0 d hd hp
    subst h0
    unfold get_blogs sortDescBy mongoLimit
    rw [if_pos rfl]
    exact List.mem_map.2
      ⟨d, mem_sortBy.2 (List.mem_filter.2 ⟨hd, by simp [docMatches, hp]⟩), rfl⟩

/-- Counterexample for C2 as stated: with `limit = 0` the listing is not
truncated to at most `0` documents — MongoDB's `limit(0)` means no limit,
so a store with one published post returns it. -/
theorem claim2_limit_zero_counterexample :
    ¬ ((get_blogs [exBlogA] 0).length ≤ (0 : Int).natAbs) := by decide

/-- Witness for C2: on the example store (one unpublished post among
three) the listing obeys the limit and is sorted by `created_at`
descending, and with `limit = 0` the oldest published post still
appears. -/
theorem claim2_blog_listing_witness :
    (get_blogs [exBlogA, exBlogB, exBlogC] 100).length ≤ (100 : Int).natAbs ∧
    shapeDoc exBlogA ∈ get_blogs [exBlogA, exBlogB, exBlogC] 0 ∧
    (get_blogs [exBlogA, exBlogB, exBlogC] 100).Pairwise createdAtDesc := by
  refine ⟨?_, ?_, ?_⟩
  · exact (claim2_blog_listing [exBlogA, exBlogB, exBlogC] 100).2.1 (by decide)
  · exact (claim2_blog_listing [exBlogA, exBlogB, exBlogC] 0).2.2.1 rfl exBlogA
      (by decide) rfl
  · exact (claim2_blog_listing [exBlogA, exBlogB, exBlogC] 100).2.2.2 (by decide)

/-! ### Slug lookup lemmas -/

theorem docMatches_slug_published {d : Doc} {slug : String}
    (h : docMatches [("slug", Value.vStr slug), ("published", Value.vBool true)] d = true) :
    docGet d "slug" = some (.vStr slug) ∧ docGet d "published" = some (.vBool true) := by
  simpa [docMatches] using h

/-- C6: the public blog slug lookup answers the shaped copy of a stored
document whose `slug` matches and whose `published` is true (so an
unpublished post is never returned), and answers 404 Not found when no
stored document matches both. -/
theorem claim6_blog_slug_lookup (coll : List Doc) (slug : String) :
    (∀ r, get_blog coll slug = .ok r → ∃ d ∈ coll,
        docGet d "slug" = some (.vStr slug) ∧
        docGet d "published" = some (.vBool true) ∧ r = shapeDoc d) ∧
    ((∀ d ∈ coll, ¬ (docGet d "slug" = some (.vStr slug) ∧
        docGet d "published" = some (.vBool true))) →
      get_blog coll slug = .error ⟨404, "Not found"⟩) := by
  constructor
  · intro r h
    unfold get_blog at h
    cases hf : find_one coll [("slug", .vStr slug), ("published", .vBool true)] with
    | none => rw [hf] at h; exact absurd h (by simp)
    | some d =>
      rw [hf] at h
      simp only at h
      have hd : d ∈ coll := List.mem_of_find?_eq_some hf
      have hm := docMatches_slug_published (List.find?_some hf)
      by_cases hnil : d = ([] : Doc)
      · rw [if_pos hnil] at h; exact absurd h (by simp)
      · rw [if_neg hnil] at h
        exact ⟨d, hd, hm.1, hm.2, (Except.ok.inj h).symm⟩
  · intro h
    have hf : find_one coll [("slug", .vStr slug), ("published", .vBool true)] = none := by
      apply List.find?_eq_none.2
      intro x hx
      intro hc
      exact h x hx (docMatches_slug_published hc)
    unfold get_blog
    rw [hf]

/-- Witness for C6: the unpublished example post is invisible by slug, and
the published one is returned shaped. -/
theorem claim6_blog_slug_lookup_witness :
    get_blog [exBlogA, exBlogB] "b" = .error ⟨404, "Not found"⟩ ∧
    (∃ d ∈ [exBlogA, exBlogB],
        docGet d "slug" = some (.vStr "a") ∧
        docGet d "published" = some (.vBool true) ∧ shapeDoc exBlogA = shapeDoc d) := by
  constructor
  · exact (claim6_blog_slug_lookup [exBlogA, exBlogB] "b").2 (by decide)
  · exact (claim6_blog_slug_lookup [exBlogA, exBlogB] "a").1 (shapeDoc exBlogA) rfl

/-! ### Response-shaping claims -/

/-- C9: every record a public read endpoint returns is the shaping of a
stored document; shaping never leaves an `"_id"` key, and (for stored
documents without a literal `"id"` field of their own — creates and
updates never write one) it exposes the store id as the string field
`"id"`. -/
theorem claim9_id_exposure :
    (∀ (coll : List Doc) (limit : Int) r, r ∈ get_skills coll limit →
        ∃ d ∈ coll, r = shapeDoc d) ∧
    (∀ (coll : List Doc) (limit : Int) r, r ∈ get_experiences coll limit →
        ∃ d ∈ coll, r = shapeDoc d) ∧
    (∀ (coll : List Doc) (limit : Int) r, r ∈ get_blogs coll limit →
        ∃ d ∈ coll, r = shapeDoc d) ∧
    (∀ (coll : List Doc) (slug : String) r, get_skill coll slug = .ok r →
        ∃ d ∈ coll, r = shapeDoc d) ∧
    (∀ (coll : List Doc) (slug : String) r, get_blog coll slug = .ok r →
        ∃ d ∈ coll, r = shapeDoc d) ∧
    (∀ d : Doc, "_id" ∉ keys (shapeDoc d)) ∧
    (∀ d : Doc, "id" ∉ keys d →
        docGet (shapeDoc d) "id" =
          some (.vStr (valueToStr (docGetD d "_id" .vNull)))) ∧
    (∀ p : SkillIn, "id" ∉ keys p.dump) ∧
    (∀ p : ExperienceIn, "id" ∉ keys p.dump) ∧
    (∀ p : BlogPostIn, "id" ∉ keys p.dump) := by
  refine ⟨?_, ?_, ?_, ?_, ?_, not_id_mem_keys_shapeDoc, fun d h => docGet_shapeDoc_id h,
    fun p => by rw [show keys p.dump = ["title", "slug", "icon", "summary", "link",
      "tags", "order"] from rfl]; decide,
    fun p => by rw [show keys p.dump = ["company", "role", "startDate", "endDate",
      "summary", "image", "order"] from rfl]; decide,
    fun p => by rw [show keys p.dump = ["title", "slug", "excerpt", "content",
      "coverImage", "tags", "published"] from rfl]; decide⟩
  · intro coll limit r h
    unfold get_skills sortAscBy at h
    rcases mem_listing_pipeline h with ⟨d, hd, _, hr⟩
    exact ⟨d, hd, hr⟩
  · intro coll limit r h
    unfold get_experiences sortAscBy at h
    rcases mem_listing_pipeline h with ⟨d, hd, _, hr⟩
    exact ⟨d, hd, hr⟩
  · intro coll limit r h
    unfold get_blogs sortDescBy at h
    rcases mem_listing_pipeline h with ⟨d, hd, _, hr⟩
    exact ⟨d, hd, hr⟩
  · intro coll slug r h
    unfold get_skill at h
    cases hf : find_one coll [("slug", .vStr slug)] with
    | none => rw [hf] at h; exact absurd h (by simp)
    | some d =>
      rw [hf] at h
      simp only at h
      by_cases hnil : d = ([] : Doc)
      · rw [if_pos hnil] at h; exact absurd h (by simp)
      · rw [if_neg hnil] at h
        exact ⟨d, List.mem_of_find?_eq_some hf, (Except.ok.inj h).symm⟩
  · intro coll slug r h
    unfold get_blog at h
    cases hf : find_one coll [("slug", .vStr slug), ("published", .vBool true)] with
    | none => rw [hf] at h; exact absurd h (by simp)
    | some d =>
      rw [hf] at h
      simp only at h
      by_cases hnil : d = ([] : Doc)
      · rw [if_pos hnil] at h; exact absurd h (by simp)
      · rw [if_neg hnil] at h
        exact ⟨d, List.mem_of_find?_eq_some hf, (Except.ok.inj h).symm⟩

/-- Witness for C9: the stored skill's lookup result is the shaping of a
stored document, and the shaping of the example blog document exposes its
ObjectId as the string `"id"` field. -/
theorem claim9_id_exposure_witness :
    (∃ d ∈ [exSkillDoc], shapeDoc exSkillDoc = shapeDoc d) ∧
    docGet (shapeDoc exBlogA) "id" =
      some (.vStr (valueToStr (docGetD exBlogA "_id" .vNull))) := by
  constructor
  · exact claim9_id_exposure.2.2.2.1 [exSkillDoc] "go" (shapeDoc exSkillDoc) rfl
  · exact claim9_id_exposure.2.2.2.2.2.2.1 exBlogA (by decide)

/-! ### Experience payload validation (C7) -/

theorem reqStrField_error_or_ok (p : Doc) (k : String) :
    (∃ s, reqStrField p k = .ok s) ∨ reqStrField p k = .error validationErr := by
  unfold reqStrField
  cases docGet p k with
  | none => exact Or.inr rfl
  | some v => cases v <;> first | (exact Or.inr rfl) | (exact Or.inl ⟨_, rfl⟩)

theorem reqStrField_startDate_error {payload : Doc}
    (h : docGet payload "startDate" = none ∨
        ∃ v, docGet payload "startDate" = some v ∧ ∀ str, v ≠ Value.vStr str) :
    reqStrField payload "startDate" = .error validationErr := by
  unfold reqStrField
  rcases h with h | ⟨v, hv, hne⟩
  · rw [h]
  · rw [hv]
    cases v <;> first | rfl | exact (hne _ rfl).elim

theorem validate_error_of_bad_startDate {payload : Doc}
    (h : reqStrField payload "startDate" = .error validationErr) :
    ExperienceIn.validate payload = .error validationErr := by
  unfold ExperienceIn.validate
  rcases reqStrField_error_or_ok payload "company" with ⟨c, hc⟩ | hc
  · rw [hc]
    rcases reqStrField_error_or_ok payload "role" with ⟨ro, hro⟩ | hro
    · rw [hro, h]
    · rw [hro]
  · rw [hc]

/-- C7 (amended): the experience create route validates the body against
`ExperienceIn` of `main.py`, where `startDate` is a required plain `str`
("ISO date" by comment only), not the `date` of the unused
`schemas.Experience` model: a body whose `startDate` is missing or is not
a string is rejected with a validation error before any store call, while
a string that is not a date is accepted. -/
theorem claim7_experience_create_validation (s : Session) (st : Store)
    (payload : Doc) (newId : String)
    (h : docGet payload "startDate" = none ∨
        ∃ v, docGet payload "startDate" = some v ∧ ∀ str, v ≠ Value.vStr str) :
    ExperienceIn.validate payload = .error validationErr ∧
    (sessionAdmin s = true →
      create_experience_raw s st payload newId = (.error validationErr, st)) := by
  have hval := validate_error_of_bad_startDate (reqStrField_startDate_error h)
  refine ⟨hval, fun hs => ?_⟩
  have hok : admin_required s = .ok () := by simp [admin_required, hs]
  simp [create_experience_raw, hok, hval]

/-- Counterexample for C7 as stated: a payload whose `startDate` is the
non-date string `"not-a-date"` passes validation — the route accepts it
and performs the store insert — although it is not an ISO date. -/
theorem claim7_non_date_accepted_counterexample :
    ExperienceIn.validate exBadDatePayload =
      .ok ⟨"Acme", "Dev", "not-a-date", none, none, none, 0⟩ ∧
    isIsoDateString "not-a-date" = false ∧
    (create_experience_raw exAuthSession ⟨[], [], []⟩ exBadDatePayload
        "eeeeeeeeeeeeeeeeeeeeeeee").1 =
      .ok [("id", .vStr "eeeeeeeeeeeeeeeeeeeeeeee")] :=
  ⟨rfl, rfl, rfl⟩

/-- Witness for C7: a payload with no `startDate` at all is rejected
before any store call. -/
theorem claim7_experience_create_validation_witness :
    ExperienceIn.validate [("company", Value.vStr "Acme"), ("role", Value.vStr "Dev")] =
      .error validationErr ∧
    create_experience_raw exAuthSession ⟨[], [], []⟩
      [("company", Value.vStr "Acme"), ("role", Value.vStr "Dev")] "x" =
      (.error validationErr, ⟨[], [], []⟩) := by
  have h := claim7_experience_create_validation exAuthSession ⟨[], [], []⟩
    [("company", Value.vStr "Acme"), ("role", Value.vStr "Dev")] "x" (Or.inl rfl)
  exact ⟨h.1, h.2 rfl⟩

end PortfolioApp

